import Mathlib

/-!
Verification of the SnusQuit backend (src/main.py, src/schemas.py).

Dates are modelled as integer day numbers (one unit = one calendar day, so
`timedelta(days=1)` is `1`).  Python floats are modelled as rationals.
Document identifiers are modelled as natural numbers for stored records and
as strings for the user-supplied references parsed by `ObjectId`.
-/

namespace SnusQuit

/-- A document of the `checkin` collection as read back by the summary
endpoint.  `date` is `none` when the stored document lacks a date field
(the code reads it with `c.get("date", ...)`). -/
structure Checkin where
  user_id : String
  date : Option ℤ
  nicotine_free : Bool
  portions_used : Option ℚ
  craving_level : Option ℤ
  note : Option String
deriving DecidableEq, Inhabited, Repr

/-- Floor of a rational number, computed on the numerator and denominator. -/
def floorQ (q : ℚ) : ℤ := q.num.fdiv (q.den : ℤ)

/-- Round a rational to the nearest integer, ties going to the even
integer (the rounding used by Python's built-in `round`). -/
def roundHalfEven (q : ℚ) : ℤ :=
  let f := floorQ q
  let r := q - (f : ℚ)
  if r < 1 / 2 then f
  else if 1 / 2 < r then f + 1
  else if f % 2 = 0 then f else f + 1

/-- Python's `round(x, n)` on rationals. -/
def pythonRound (n : ℕ) (x : ℚ) : ℚ :=
  (roundHalfEven (x * 10 ^ n) : ℚ) / 10 ^ n

/-- `c.get("portions_used", 0) or 0`: a missing or null `portions_used`
counts as 0. -/
def portionsVal (c : Checkin) : ℚ := c.portions_used.getD 0

/-- `c.get("date", today - timedelta(days=1000))`: the date of a check-in,
with the sentinel default used by the 7-day window filter. -/
def dateOrDefault (today : ℤ) (c : Checkin) : ℤ := c.date.getD (today - 1000)

/-- `c_map.get(day)` where `c_map = {c.get("date"): c for c in checkins}`:
a dict comprehension keeps the last entry written for each key. -/
def cmapGet (m : List Checkin) (d : ℤ) : Option Checkin :=
  (m.filter (fun c => decide (c.date = some d))).getLast?

/-- The loop guard of the streak walk: day `d` has a check-in in the map
and that check-in is nicotine-free. -/
def isNF (m : List Checkin) (d : ℤ) : Bool :=
  match cmapGet m d with
  | some c => c.nicotine_free
  | none => false

/-- The `while True` streak walk, made structurally recursive on a fuel
argument.  The Python loop terminates because each counted day consumes a
distinct stored check-in, so `m.length + 1` fuel is never exhausted
(proved below in `isNF_run_le_length`). -/
def streakAux (m : List Checkin) : ℕ → ℤ → ℕ
  | 0, _ => 0
  | fuel + 1, day => if isNF m day then streakAux m fuel (day - 1) + 1 else 0

/-- The `current_streak` computation of `get_summary`. -/
def currentStreak (m : List Checkin) (today : ℤ) : ℕ :=
  streakAux m (m.length + 1) today

/-- The membership test of the `last7` list comprehension:
`last7_start <= c.get("date", today - timedelta(days=1000)) <= today`. -/
def inLast7 (today : ℤ) (c : Checkin) : Bool :=
  decide (today - 6 ≤ dateOrDefault today c ∧ dateOrDefault today c ≤ today)

/-- The `last7` list of `get_summary`. -/
def last7List (m : List Checkin) (today : ℤ) : List Checkin :=
  m.filter (inLast7 today)

/-- A document of the `plan` collection.  `created_at` is the creation
timestamp the persistence layer assigns on insert. -/
structure Plan where
  user_id : String
  goal_type : String
  start_date : ℤ
  target_date : Option ℤ
  baseline_portions_per_day : Option ℚ
  target_portions_per_day : Option ℚ
  created_at : ℤ
deriving DecidableEq, Inhabited, Repr

/-- `find_one({"user_id": ...}, sort=[("created_at", -1)])` on the plan
collection: the plan with the greatest `created_at`, the earliest stored
one winning ties (descending sort is stable). -/
def currentPlan : List Plan → Option Plan
  | [] => none
  | p :: ps =>
    match currentPlan ps with
    | none => some p
    | some q => if q.created_at > p.created_at then some q else some p

/-- `(sum(l)/len(l)) if l else 0`. -/
def meanQ (l : List ℚ) : ℚ := if l.isEmpty then 0 else l.sum / (l.length : ℚ)

/-- The adherence computation of `get_summary`, given the current plan and
the `last7` list. -/
def adherencePercent (planOpt : Option Plan) (last7 : List Checkin) : Option ℚ :=
  match planOpt with
  | none => none
  | some plan =>
    if plan.goal_type = "reduce" ∧ plan.target_portions_per_day ≠ none then
      let last7_portions := last7.map portionsVal
      let last7_avg : ℚ := meanQ last7_portions
      let target : ℚ := plan.target_portions_per_day.getD 0
      if 0 < target then
        some (max 0 (pythonRound 1 ((1 - last7_avg / target) * 100)))
      else none
    else none

/-- The response object of `GET /api/summary/{user_id}`. -/
structure Summary where
  total_checkins : ℕ
  nicotine_free_days : ℕ
  current_streak : ℕ
  avg_portions : ℚ
  last7_days : ℕ
  last7_nicotine_free : ℕ
  adherence_percent : Option ℚ
deriving DecidableEq, Repr

/-- The summary engine of `get_summary`, taking the user's check-ins (as
returned by the ascending-by-date query), the user's stored plans, and the
reference date `today`. -/
def get_summary (checkins : List Checkin) (plans : List Plan) (today : ℤ) : Summary :=
  let total := checkins.length
  let nicotine_free := checkins.countP (fun c => c.nicotine_free)
  let portions := checkins.map portionsVal
  let avg_portions : ℚ :=
    if portions.isEmpty then 0
    else pythonRound 2 (portions.sum / (portions.length : ℚ))
  let streak := currentStreak checkins today
  let last7 := last7List checkins today
  let last7_nf := last7.countP (fun c => c.nicotine_free)
  let plan := currentPlan plans
  let adherence := adherencePercent plan last7
  { total_checkins := total
    nicotine_free_days := nicotine_free
    current_streak := streak
    avg_portions := avg_portions
    last7_days := last7.length
    last7_nicotine_free := last7_nf
    adherence_percent := adherence }

/-- The 7-day window test exactly as the specification words it: the
check-in's recorded date falls in the inclusive window
`[today - 6, today]`; a check-in with no recorded date never matches. -/
def specInWindow (today : ℤ) (c : Checkin) : Bool :=
  match c.date with
  | some d => decide (today - 6 ≤ d ∧ d ≤ today)
  | none => false

/-- The specification's `last7_avg`: mean of `portions_used` (absent
treated as 0) over the 7-day window, 0 when the window is empty. -/
def specLast7Avg (m : List Checkin) (today : ℤ) : ℚ :=
  meanQ ((m.filter (specInWindow today)).map portionsVal)

/-- Is `c` a hexadecimal digit character? -/
def isHexChar (c : Char) : Bool :=
  c.isDigit || ('a' ≤ c && c ≤ 'f') || ('A' ≤ c && c ≤ 'F')

/-- `ObjectId(s)` parses successfully exactly when `s` is a 24-character
hexadecimal string. -/
def validObjectId (s : String) : Bool :=
  s.length == 24 && s.toList.all isHexChar

/-- A stored document of the `checkin` collection, as written by the
upsert endpoint.  `id` models the Mongo `_id`. -/
structure CheckinDoc where
  id : ℕ
  user_id : String
  date : ℤ
  nicotine_free : Bool
  portions_used : Option ℚ
  craving_level : Option ℤ
  note : Option String
  created_at : ℤ
  updated_at : ℤ
deriving DecidableEq, Inhabited, Repr

/-- The request body of `POST /api/checkins` (a `Checkin` schema value). -/
structure CheckinPayload where
  user_id : String
  date : ℤ
  nicotine_free : Bool
  portions_used : Option ℚ
  craving_level : Option ℤ
  note : Option String
deriving DecidableEq, Inhabited, Repr

/-- The `checkin` collection: the stored documents in insertion order, and
the next identifier the store will assign (Mongo ids are fresh). -/
structure CheckinStore where
  docs : List CheckinDoc
  nextId : ℕ
deriving DecidableEq, Repr

/-- `find_one({"user_id": payload.user_id, "date": d})`: does `c` match
the upsert's natural key? -/
def checkinKeyMatch (p : CheckinPayload) (c : CheckinDoc) : Bool :=
  decide (c.user_id = p.user_id ∧ c.date = p.date)

/-- The `$set` update applied to an existing check-in: every payload
field, the (re-parsed) date, and `updated_at`; `_id` and `created_at` are
not in the update document and stay as they are. -/
def overwriteCheckin (c : CheckinDoc) (p : CheckinPayload) (now : ℤ) : CheckinDoc :=
  { c with
    user_id := p.user_id
    date := p.date
    nicotine_free := p.nicotine_free
    portions_used := p.portions_used
    craving_level := p.craving_level
    note := p.note
    updated_at := now }

/-- `update_one({"_id": i}, ...)`: apply `f` to the first document whose
id is `i`, leaving every other document unchanged. -/
def updateOneById : List CheckinDoc → ℕ → (CheckinDoc → CheckinDoc) → List CheckinDoc
  | [], _, _ => []
  | c :: rest, i, f => if c.id = i then f c :: rest else c :: updateOneById rest i f

/-- The document inserted by the upsert's miss branch: payload fields plus
`created_at` and `updated_at` set to the current time. -/
def newCheckinDoc (i : ℕ) (p : CheckinPayload) (now : ℤ) : CheckinDoc :=
  { id := i
    user_id := p.user_id
    date := p.date
    nicotine_free := p.nicotine_free
    portions_used := p.portions_used
    craving_level := p.craving_level
    note := p.note
    created_at := now
    updated_at := now }

/-- `POST /api/checkins` (`create_or_update_checkin`): reject a malformed
user id with a 400; otherwise look up the check-in by (user_id, date) and
either overwrite it in place (returning the existing id) or insert a new
document (returning the new id). -/
def create_or_update_checkin (s : CheckinStore) (p : CheckinPayload) (now : ℤ) :
    Except ℕ (CheckinStore × ℕ) :=
  if validObjectId p.user_id then
    match s.docs.find? (checkinKeyMatch p) with
    | some existing =>
      Except.ok
        ({ s with docs := updateOneById s.docs existing.id (fun c => overwriteCheckin c p now) },
          existing.id)
    | none =>
      Except.ok
        ({ docs := s.docs ++ [newCheckinDoc s.nextId p now], nextId := s.nextId + 1 }, s.nextId)
  else Except.error 400

/-- The request body of `POST /api/plans` (a `Plan` schema value). -/
structure PlanPayload where
  user_id : String
  goal_type : String
  start_date : ℤ
  target_date : Option ℤ
  baseline_portions_per_day : Option ℚ
  target_portions_per_day : Option ℚ
deriving DecidableEq, Inhabited, Repr

/-- A stored document of the `plan` collection. -/
structure PlanDoc where
  id : ℕ
  user_id : String
  goal_type : String
  start_date : ℤ
  target_date : Option ℤ
  baseline_portions_per_day : Option ℚ
  target_portions_per_day : Option ℚ
  created_at : ℤ
deriving DecidableEq, Inhabited, Repr

/-- The store as seen by `create_plan`: the ids of the existing users, the
stored plans, and the next identifier to assign. -/
structure PlanStore where
  users : List String
  plans : List PlanDoc
  nextId : ℕ
deriving DecidableEq, Repr

/-- Modelled from the spec: `create_document` (defined in `database.py`,
which is not under src/) serializes the payload's fields into one new
record of the collection with a fresh server-assigned identifier and the
creation timestamp of §3, and returns the identifier. -/
def insertPlanDoc (i : ℕ) (p : PlanPayload) (now : ℤ) : PlanDoc :=
  { id := i
    user_id := p.user_id
    goal_type := p.goal_type
    start_date := p.start_date
    target_date := p.target_date
    baseline_portions_per_day := p.baseline_portions_per_day
    target_portions_per_day := p.target_portions_per_day
    created_at := now }

/-- `POST /api/plans` (`create_plan`): 400 on a malformed user id, 404
when the referenced user does not exist, otherwise insert one plan record
and return its id.  The store is returned alongside the outcome so that
the absence of side effects on failure is expressible. -/
def create_plan (s : PlanStore) (p : PlanPayload) (now : ℤ) : PlanStore × Except ℕ ℕ :=
  if validObjectId p.user_id then
    if s.users.contains p.user_id then
      ({ s with plans := s.plans ++ [insertPlanDoc s.nextId p now], nextId := s.nextId + 1 },
        Except.ok s.nextId)
    else (s, Except.error 404)
  else (s, Except.error 400)

/-- A tip record (title and body). -/
structure Tip where
  title : String
  body : String
deriving DecidableEq, Inhabited, Repr

/-- The static fallback list returned when the database is unavailable. -/
def fallbackTips : List Tip :=
  [⟨"Stay hydrated", "Sip water when a craving hits."⟩,
   ⟨"Change routines", "Avoid triggers like coffee breaks with snus."⟩]

/-- The four default tips seeded on first read of an empty store. -/
def defaultTips : List Tip :=
  [⟨"Delay the urge", "Wait 10 minutes and breathe slowly."⟩,
   ⟨"Swap the habit", "Chew sugar-free gum or carrots."⟩,
   ⟨"Know your triggers", "List situations that spark cravings and plan alternatives."⟩,
   ⟨"Move your body", "A brisk 5-minute walk can reduce cravings."⟩]

/-- `GET /api/tips` (`get_tips`): the tip store is `none` when the
database is unavailable, otherwise the list of stored tips in insertion
order.  Seeding uses `create_document` (not under src/), modelled from
the spec as appending one new record per default tip; the final
`find({}).limit(20)` is a 20-element prefix.  Returns the resulting store
and the response list. -/
def get_tips : Option (List Tip) → Option (List Tip) × List Tip
  | none => (none, fallbackTips)
  | some tips =>
    let tips2 := if tips.length = 0 then tips ++ defaultTips else tips
    (some tips2, tips2.take 20)

/-! ### Helper lemmas -/

theorem cmapGet_eq_some {m : List Checkin} {d : ℤ} {c : Checkin}
    (h : cmapGet m d = some c) : c ∈ m ∧ c.date = some d := by
  have hmem : c ∈ m.filter (fun c => decide (c.date = some d)) :=
    List.mem_of_mem_getLast? h
  have := List.mem_filter.mp hmem
  exact ⟨this.1, of_decide_eq_true this.2⟩

theorem isNF_exists {m : List Checkin} {d : ℤ} (h : isNF m d = true) :
    ∃ c, cmapGet m d = some c ∧ c.nicotine_free = true := by
  unfold isNF at h
  cases hc : cmapGet m d with
  | none => rw [hc] at h; exact absurd h (by simp)
  | some c => rw [hc] at h; exact ⟨c, rfl, h⟩

theorem streakAux_isNF (m : List Checkin) :
    ∀ fuel : ℕ, ∀ day : ℤ, ∀ k : ℕ, k < streakAux m fuel day →
      isNF m (day - k) = true := by
  intro fuel
  induction fuel with
  | zero => intro day k hk; exact absurd hk (by simp [streakAux])
  | succ f ih =>
    intro day k hk
    by_cases h : isNF m day = true
    · rw [streakAux, if_pos h] at hk
      cases k with
      | zero => simpa using h
      | succ j =>
        have hj : j < streakAux m f (day - 1) := by omega
        have := ih (day - 1) j hj
        have harith : day - 1 - (j : ℤ) = day - ((j + 1 : ℕ) : ℤ) := by push_cast; ring
        rwa [harith] at this
    · rw [streakAux, if_neg h] at hk
      exact absurd hk (by omega)

theorem streakAux_stop (m : List Checkin) :
    ∀ fuel : ℕ, ∀ day : ℤ, streakAux m fuel day < fuel →
      isNF m (day - (streakAux m fuel day : ℕ)) = false := by
  intro fuel
  induction fuel with
  | zero => intro day h; exact absurd h (by omega)
  | succ f ih =>
    intro day h
    by_cases hnf : isNF m day = true
    · rw [streakAux, if_pos hnf] at h ⊢
      have hlt : streakAux m f (day - 1) < f := by omega
      have := ih (day - 1) hlt
      have harith : day - 1 - ((streakAux m f (day - 1) : ℕ) : ℤ) =
          day - ((streakAux m f (day - 1) + 1 : ℕ) : ℤ) := by push_cast; ring
      rwa [harith] at this
    · rw [streakAux, if_neg hnf]
      simpa using (eq_false_of_ne_true hnf)

theorem isNF_run_le_length (m : List Checkin) (day : ℤ) (n : ℕ)
    (h : ∀ k : ℕ, k < n → isNF m (day - k) = true) : n ≤ m.length := by
  classical
  have hsub : ((Finset.range n).image (fun k : ℕ => day - (k : ℤ))) ⊆
      (m.filterMap Checkin.date).toFinset := by
    intro d hd
    simp only [Finset.mem_image, Finset.mem_range] at hd
    obtain ⟨k, hk, rfl⟩ := hd
    obtain ⟨c, hc, _⟩ := isNF_exists (h k hk)
    obtain ⟨hcm, hcd⟩ := cmapGet_eq_some hc
    simp only [List.mem_toFinset, List.mem_filterMap]
    exact ⟨c, hcm, hcd⟩
  have hcard : ((Finset.range n).image (fun k : ℕ => day - (k : ℤ))).card = n := by
    rw [Finset.card_image_of_injOn, Finset.card_range]
    intro a _ b _ hab
    have h2 : day - (a : ℤ) = day - (b : ℤ) := hab
    omega
  calc n = ((Finset.range n).image (fun k : ℕ => day - (k : ℤ))).card := hcard.symm
    _ ≤ (m.filterMap Checkin.date).toFinset.card := Finset.card_le_card hsub
    _ ≤ (m.filterMap Checkin.date).length := List.toFinset_card_le _
    _ ≤ m.length := List.length_filterMap_le _ _

theorem currentStreak_isNF (m : List Checkin) (today : ℤ) :
    ∀ k : ℕ, k < currentStreak m today → isNF m (today - k) = true :=
  streakAux_isNF m (m.length + 1) today

theorem currentStreak_lt_fuel (m : List Checkin) (today : ℤ) :
    currentStreak m today < m.length + 1 :=
  Nat.lt_succ_of_le (isNF_run_le_length m today _ (currentStreak_isNF m today))

theorem currentStreak_stop (m : List Checkin) (today : ℤ) :
    isNF m (today - (currentStreak m today : ℕ)) = false :=
  streakAux_stop m (m.length + 1) today (currentStreak_lt_fuel m today)

theorem currentStreak_eq_iff (m : List Checkin) (today : ℤ) (n : ℕ) :
    currentStreak m today = n ↔
      ((∀ k : ℕ, k < n → isNF m (today - k) = true) ∧ isNF m (today - n) = false) := by
  constructor
  · rintro rfl
    exact ⟨currentStreak_isNF m today, currentStreak_stop m today⟩
  · rintro ⟨h1, h2⟩
    rcases lt_trichotomy (currentStreak m today) n with hlt | heq | hgt
    · exact absurd (h1 _ hlt) (by simp [currentStreak_stop m today])
    · exact heq
    · exact absurd (currentStreak_isNF m today n hgt) (by simp [h2])

theorem inLast7_eq_specInWindow (today : ℤ) (c : Checkin) :
    inLast7 today c = specInWindow today c := by
  cases hd : c.date with
  | none =>
    simp only [inLast7, specInWindow, dateOrDefault, hd, Option.getD_none, Option.getD_some]
    rw [decide_eq_false]
    omega
  | some d =>
    simp only [inLast7, specInWindow, dateOrDefault, hd, Option.getD_some]

theorem last7List_eq (m : List Checkin) (today : ℤ) :
    last7List m today = m.filter (specInWindow today) :=
  List.filter_congr (fun c _ => inLast7_eq_specInWindow today c)

theorem last7_le_seven (m : List Checkin) (today : ℤ)
    (hkey : ∀ d : ℤ, (m.filter (fun c => decide (c.date = some d))).length ≤ 1) :
    (last7List m today).length ≤ 7 := by
  classical
  have hcount : ∀ d : ℤ, ((last7List m today).map (dateOrDefault today)).count d ≤ 1 := by
    intro d
    rw [List.count_eq_countP, List.countP_map]
    show (last7List m today).countP (fun c => dateOrDefault today c == d) ≤ 1
    unfold last7List
    rw [List.countP_filter]
    calc m.countP (fun c => (dateOrDefault today c == d) && inLast7 today c)
        ≤ m.countP (fun c => decide (c.date = some d)) := by
          apply List.countP_mono_left
          intro c _ hc
          have h1 := (Bool.and_eq_true _ _).mp hc
          have hd : dateOrDefault today c = d := by simpa using h1.1
          have hw := of_decide_eq_true h1.2
          cases hdate : c.date with
          | none =>
            rw [dateOrDefault, hdate, Option.getD_none] at hd hw
            omega
          | some d0 =>
            rw [dateOrDefault, hdate, Option.getD_some] at hd
            simp [hdate, hd]
      _ = (m.filter (fun c => decide (c.date = some d))).length :=
          List.countP_eq_length_filter _ _
      _ ≤ 1 := hkey d
  have hnodup : ((last7List m today).map (dateOrDefault today)).Nodup :=
    List.nodup_iff_count_le_one.mpr hcount
  have hsub : ((last7List m today).map (dateOrDefault today)).toFinset ⊆
      Finset.Icc (today - 6) today := by
    intro x hx
    rw [List.mem_toFinset] at hx
    obtain ⟨c, hc, rfl⟩ := List.mem_map.mp hx
    have hin : inLast7 today c = true := (List.mem_filter.mp hc).2
    have := of_decide_eq_true hin
    rw [Finset.mem_Icc]
    exact this
  calc (last7List m today).length
      = ((last7List m today).map (dateOrDefault today)).length := (List.length_map _ _).symm
    _ = ((last7List m today).map (dateOrDefault today)).toFinset.card :=
        (List.toFinset_card_of_nodup hnodup).symm
    _ ≤ (Finset.Icc (today - 6) today).card := Finset.card_le_card hsub
    _ = 7 := by rw [Int.card_Icc]; omega

theorem streak_le_nicotine_free (m : List Checkin) (today : ℤ) :
    currentStreak m today ≤ m.countP (fun c => c.nicotine_free) := by
  classical
  set n := currentStreak m today with hn
  have hprops := currentStreak_isNF m today
  have hf : ∀ k : ℕ, k < n →
      cmapGet m (today - k) = some ((cmapGet m (today - k)).getD default) := by
    intro k hk
    obtain ⟨c, hc, _⟩ := isNF_exists (hprops k hk)
    rw [hc]
    rfl
  have hdate : ∀ k : ℕ, k < n →
      ((cmapGet m (today - k)).getD default).date = some (today - k) :=
    fun k hk => (cmapGet_eq_some (hf k hk)).2
  have hmem : ∀ k : ℕ, k < n → (cmapGet m (today - k)).getD default ∈ m :=
    fun k hk => (cmapGet_eq_some (hf k hk)).1
  have hnf : ∀ k : ℕ, k < n →
      ((cmapGet m (today - k)).getD default).nicotine_free = true := by
    intro k hk
    obtain ⟨c, hc, hcf⟩ := isNF_exists (hprops k hk)
    rw [hc, Option.getD_some]
    exact hcf
  have hsub : (Finset.range n).image (fun k : ℕ => (cmapGet m (today - k)).getD default) ⊆
      (m.filter (fun c => c.nicotine_free)).toFinset := by
    intro x hx
    simp only [Finset.mem_image, Finset.mem_range] at hx
    obtain ⟨k, hk, rfl⟩ := hx
    rw [List.mem_toFinset, List.mem_filter]
    exact ⟨hmem k hk, hnf k hk⟩
  have hcard :
      ((Finset.range n).image (fun k : ℕ => (cmapGet m (today - k)).getD default)).card = n := by
    rw [Finset.card_image_of_injOn, Finset.card_range]
    intro a ha b hb hab
    rw [Finset.coe_range, Set.mem_Iio] at ha hb
    have h1 := hdate a ha
    have h2 := hdate b hb
    have hab2 : (cmapGet m (today - (a : ℤ))).getD default =
        (cmapGet m (today - (b : ℤ))).getD default := hab
    rw [hab2, h2] at h1
    have := Option.some.inj h1
    omega
  calc n = _ := hcard.symm
    _ ≤ (m.filter (fun c => c.nicotine_free)).toFinset.card := Finset.card_le_card hsub
    _ ≤ (m.filter (fun c => c.nicotine_free)).length := List.toFinset_card_le _
    _ = m.countP (fun c => c.nicotine_free) := (List.countP_eq_length_filter _ _).symm

theorem currentPlan_eq_none_iff (ps : List Plan) : currentPlan ps = none ↔ ps = [] := by
  cases ps with
  | nil => simp [currentPlan]
  | cons p t =>
    simp only [currentPlan]
    cases currentPlan t with
    | none => simp
    | some q => by_cases h : q.created_at > p.created_at <;> simp [h]

theorem currentPlan_mem {ps : List Plan} {q : Plan} (h : currentPlan ps = some q) :
    q ∈ ps := by
  induction ps generalizing q with
  | nil => simp [currentPlan] at h
  | cons p t ih =>
    rw [currentPlan] at h
    cases hcp : currentPlan t with
    | none =>
      rw [hcp] at h
      exact (Option.some.inj h) ▸ List.mem_cons_self p t
    | some q0 =>
      rw [hcp] at h
      have h2 : (if q0.created_at > p.created_at then some q0 else some p) = some q := h
      by_cases hgt : q0.created_at > p.created_at
      · rw [if_pos hgt] at h2
        exact List.mem_cons_of_mem p (ih ((Option.some.inj h2) ▸ hcp))
      · rw [if_neg hgt] at h2
        exact (Option.some.inj h2) ▸ List.mem_cons_self p t

theorem currentPlan_max (ps : List Plan) :
    ∀ q : Plan, currentPlan ps = some q → ∀ r ∈ ps, r.created_at ≤ q.created_at := by
  induction ps with
  | nil => intro q h; simp [currentPlan] at h
  | cons p t ih =>
    intro q h r hr
    rw [currentPlan] at h
    cases hcp : currentPlan t with
    | none =>
      rw [hcp] at h
      have ht : t = [] := (currentPlan_eq_none_iff t).mp hcp
      subst ht
      have hq : p = q := Option.some.inj h
      have hrp : r = p := List.mem_singleton.mp hr
      rw [hrp, hq]
    | some q0 =>
      rw [hcp] at h
      have h2 : (if q0.created_at > p.created_at then some q0 else some p) = some q := h
      rcases List.mem_cons.mp hr with hrp | hrt
      · subst hrp
        by_cases hgt : q0.created_at > r.created_at
        · rw [if_pos hgt] at h2
          exact le_of_lt ((Option.some.inj h2) ▸ hgt)
        · rw [if_neg hgt] at h2
          exact le_of_eq (congrArg Plan.created_at (Option.some.inj h2))
      · have hle := ih q0 hcp r hrt
        by_cases hgt : q0.created_at > p.created_at
        · rw [if_pos hgt] at h2
          exact (Option.some.inj h2) ▸ hle
        · rw [if_neg hgt] at h2
          exact le_trans (le_trans hle (le_of_not_lt hgt))
            (le_of_eq (congrArg Plan.created_at (Option.some.inj h2)))

theorem adherencePercent_some (q : Plan) (L : List Checkin) :
    adherencePercent (some q) L =
      if q.goal_type = "reduce" ∧ q.target_portions_per_day ≠ none then
        if 0 < q.target_portions_per_day.getD 0 then
          some (max 0 (pythonRound 1
            ((1 - meanQ (L.map portionsVal) / q.target_portions_per_day.getD 0) * 100)))
        else none
      else none := rfl

theorem find?_split {α : Type} (k : α → Bool) :
    ∀ (l : List α) (e : α), l.find? k = some e →
      ∃ l1 l2, l = l1 ++ e :: l2 ∧ (∀ c ∈ l1, k c = false) ∧ k e = true := by
  intro l
  induction l with
  | nil => intro e h; simp [List.find?] at h
  | cons c t ih =>
    intro e h
    by_cases hc : k c = true
    · rw [List.find?_cons_of_pos _ hc] at h
      exact ⟨[], t, by rw [Option.some.inj h]; rfl, by simp, (Option.some.inj h) ▸ hc⟩
    · rw [List.find?_cons_of_neg _ hc] at h
      obtain ⟨l1, l2, hsplit, hnm, hke⟩ := ih e h
      refine ⟨c :: l1, l2, by rw [hsplit]; rfl, ?_, hke⟩
      intro x hx
      rcases List.mem_cons.mp hx with rfl | hxl
      · exact eq_false_of_ne_true hc
      · exact hnm x hxl

theorem find?_prepend_nomatch {α : Type} {k : α → Bool} {l1 : List α} {x : α} (l2 : List α)
    (h1 : ∀ c ∈ l1, k c = false) (hx : k x = true) :
    (l1 ++ x :: l2).find? k = some x := by
  induction l1 with
  | nil => exact List.find?_cons_of_pos _ hx
  | cons c t ih =>
    rw [List.cons_append, List.find?_cons_of_neg _ (by simp [h1 c (List.mem_cons_self c t)])]
    exact ih (fun d hd => h1 d (List.mem_cons_of_mem c hd))

theorem updateOneById_prepend {l1 : List CheckinDoc} {x : CheckinDoc} {i : ℕ}
    (l2 : List CheckinDoc) (f : CheckinDoc → CheckinDoc)
    (h1 : ∀ c ∈ l1, c.id ≠ i) (hx : x.id = i) :
    updateOneById (l1 ++ x :: l2) i f = l1 ++ f x :: l2 := by
  induction l1 with
  | nil => simp [updateOneById, hx]
  | cons c t ih =>
    rw [List.cons_append, updateOneById, if_neg (h1 c (List.mem_cons_self c t)),
      ih (fun d hd => h1 d (List.mem_cons_of_mem c hd))]
    rfl

theorem nodup_ids_prepend {l1 l2 : List CheckinDoc} {e : CheckinDoc}
    (hn : (((l1 ++ e :: l2)).map (fun c => c.id)).Nodup) :
    ∀ c ∈ l1, c.id ≠ e.id := by
  rw [List.map_append, List.map_cons] at hn
  have hcons := List.nodup_middle.mp hn
  have hnotmem := (List.nodup_cons.mp hcons).1
  intro c hc hceq
  exact hnotmem (by
    apply List.mem_append_left
    exact hceq ▸ List.mem_map_of_mem (fun c => c.id) hc)

theorem overwriteCheckin_matches (c : CheckinDoc) (p : CheckinPayload) (now : ℤ) :
    checkinKeyMatch p (overwriteCheckin c p now) = true := by
  simp [checkinKeyMatch, overwriteCheckin]

theorem newCheckinDoc_matches (i : ℕ) (p : CheckinPayload) (now : ℤ) :
    checkinKeyMatch p (newCheckinDoc i p now) = true := by
  simp [checkinKeyMatch, newCheckinDoc]

/-! ### Claim theorems -/

/-- C6: the summary's `total_checkins` is exactly the number of check-in
records, and `nicotine_free_days` is exactly the number of records with
`nicotine_free = true`. -/
theorem summary_counts (m : List Checkin) (plans : List Plan) (today : ℤ) :
    (get_summary m plans today).total_checkins = m.length ∧
    (get_summary m plans today).nicotine_free_days =
      (m.filter (fun c => c.nicotine_free)).length :=
  ⟨rfl, List.countP_eq_length_filter _ _⟩

/-- C5: the summary's `avg_portions` is the arithmetic mean of
`portions_used` over all check-ins (absent treated as 0) rounded to 2
decimal places, and 0 for an empty history. -/
theorem summary_avg_portions (m : List Checkin) (plans : List Plan) (today : ℤ) :
    (get_summary m plans today).avg_portions =
      if m = [] then 0
      else pythonRound 2 ((m.map portionsVal).sum / (m.length : ℚ)) := by
  have hdef : (get_summary m plans today).avg_portions =
      if (m.map portionsVal).isEmpty then (0 : ℚ)
      else pythonRound 2 ((m.map portionsVal).sum / ((m.map portionsVal).length : ℚ)) := rfl
  rw [hdef]
  cases m with
  | nil => simp
  | cons c t => simp

/-- C2: the summary's `last7.days` counts exactly the check-ins whose
recorded date lies in the inclusive window `[today - 6, today]`,
`last7.nicotine_free` counts those that are additionally nicotine-free,
and a check-in with no recorded date never matches the window. -/
theorem summary_last7_window (m : List Checkin) (plans : List Plan) (today : ℤ) :
    (get_summary m plans today).last7_days = (m.filter (specInWindow today)).length ∧
    (get_summary m plans today).last7_nicotine_free =
      (m.filter (fun c => specInWindow today c && c.nicotine_free)).length ∧
    ∀ c : Checkin, c.date = none → specInWindow today c = false ∧ c ∉ last7List m today := by
  refine ⟨?_, ?_, ?_⟩
  · show (last7List m today).length = _
    rw [last7List_eq]
  · show (last7List m today).countP (fun c => c.nicotine_free) = _
    rw [last7List_eq, List.countP_filter, ← List.countP_eq_length_filter]
    apply List.countP_congr
    intro c _
    simp [Bool.and_comm]
  · intro c hc
    have hspec : specInWindow today c = false := by simp [specInWindow, hc]
    refine ⟨hspec, ?_⟩
    intro hmem
    rw [last7List_eq] at hmem
    have := (List.mem_filter.mp hmem).2
    rw [hspec] at this
    exact absurd this (by simp)

/-- C1: the summary's `current_streak` is characterized as the unique `n`
such that each of the `n` consecutive days ending at `today` has a
nicotine-free check-in (under the date-to-check-in map) and the day
before those does not; in particular a missing check-in for `today`
yields a streak of 0. -/
theorem summary_current_streak (m : List Checkin) (plans : List Plan) (today : ℤ) :
    (∀ n : ℕ, (get_summary m plans today).current_streak = n ↔
      ((∀ k : ℕ, k < n → isNF m (today - k) = true) ∧ isNF m (today - n) = false)) ∧
    (isNF m today = false → (get_summary m plans today).current_streak = 0) := by
  have hcs : (get_summary m plans today).current_streak = currentStreak m today := rfl
  constructor
  · intro n
    rw [hcs]
    exact currentStreak_eq_iff m today n
  · intro h
    rw [hcs, currentStreak_eq_iff]
    refine ⟨?_, ?_⟩
    · intro k hk
      exact absurd hk (Nat.not_lt_zero k)
    · simpa using h

/-- The streak scenario of the specification: nicotine-free check-ins on
days 8, 9, 10 and a non-free one on day 7 give a streak of 3 on day 10. -/
theorem summary_current_streak_witness :
    (get_summary
      [⟨"u", some 7, false, none, none, none⟩,
       ⟨"u", some 8, true, none, none, none⟩,
       ⟨"u", some 9, true, none, none, none⟩,
       ⟨"u", some 10, true, none, none, none⟩] [] 10).current_streak = 3 :=
  ((summary_current_streak
      [⟨"u", some 7, false, none, none, none⟩,
       ⟨"u", some 8, true, none, none, none⟩,
       ⟨"u", some 9, true, none, none, none⟩,
       ⟨"u", some 10, true, none, none, none⟩] [] 10).1 3).mpr (by decide)

/-- The window scenario of the specification: check-ins on days 4..10
with today = 10 all fall in the window, including the boundary day 4. -/
theorem summary_last7_window_witness :
    (get_summary
      [⟨"u", some 4, true, none, none, none⟩,
       ⟨"u", some 5, true, none, none, none⟩,
       ⟨"u", some 6, true, none, none, none⟩,
       ⟨"u", some 7, true, none, none, none⟩,
       ⟨"u", some 8, true, none, none, none⟩,
       ⟨"u", some 9, true, none, none, none⟩,
       ⟨"u", some 10, true, none, none, none⟩] [] 10).last7_days = 7 ∧
    specInWindow 10 ⟨"u", none, true, none, none, none⟩ = false := by
  constructor
  · rw [(summary_last7_window
      [⟨"u", some 4, true, none, none, none⟩,
       ⟨"u", some 5, true, none, none, none⟩,
       ⟨"u", some 6, true, none, none, none⟩,
       ⟨"u", some 7, true, none, none, none⟩,
       ⟨"u", some 8, true, none, none, none⟩,
       ⟨"u", some 9, true, none, none, none⟩,
       ⟨"u", some 10, true, none, none, none⟩] [] 10).1]
    decide
  · exact ((summary_last7_window [] [] 10).2.2 ⟨"u", none, true, none, none, none⟩ rfl).1

/-- C9: the summary's counters are mutually consistent: nicotine-free
days never exceed total check-ins, the 7-day counters are bounded by each
other and by the total, and when the history has at most one check-in per
calendar date, the 7-day count is at most 7 and the streak never exceeds
the number of nicotine-free check-ins. -/
theorem summary_output_invariants (m : List Checkin) (plans : List Plan) (today : ℤ) :
    (get_summary m plans today).nicotine_free_days ≤
      (get_summary m plans today).total_checkins ∧
    (get_summary m plans today).last7_nicotine_free ≤
      (get_summary m plans today).last7_days ∧
    (get_summary m plans today).last7_days ≤ (get_summary m plans today).total_checkins ∧
    ((∀ d : ℤ, (m.filter (fun c => decide (c.date = some d))).length ≤ 1) →
      (get_summary m plans today).last7_days ≤ 7 ∧
      (get_summary m plans today).current_streak ≤
        (get_summary m plans today).nicotine_free_days) := by
  refine ⟨?_, ?_, ?_, fun hkey => ⟨last7_le_seven m today hkey, ?_⟩⟩
  · show m.countP (fun c => c.nicotine_free) ≤ m.length
    exact List.countP_le_length _
  · show (last7List m today).countP (fun c => c.nicotine_free) ≤ (last7List m today).length
    exact List.countP_le_length _
  · show (last7List m today).length ≤ m.length
    exact List.length_filter_le _ _
  · show currentStreak m today ≤ m.countP (fun c => c.nicotine_free)
    exact streak_le_nicotine_free m today

/-- A concrete instance of the invariant theorem: a one-day history
satisfies the conditioned bounds. -/
theorem summary_output_invariants_witness :
    (get_summary [⟨"u", some 10, true, none, none, none⟩] [] 10).last7_days ≤ 7 ∧
    (get_summary [⟨"u", some 10, true, none, none, none⟩] [] 10).current_streak ≤
      (get_summary [⟨"u", some 10, true, none, none, none⟩] [] 10).nicotine_free_days :=
  (summary_output_invariants [⟨"u", some 10, true, none, none, none⟩] [] 10).2.2.2
    (fun _d => List.length_filter_le _ _)

/-- C3: `adherence_percent` is non-null exactly when the current plan
(the stored plan with the greatest creation timestamp) has goal type
"reduce" and a positive target, in which case it equals
`max(0, round((1 - last7_avg/target) * 100, 1))` with `last7_avg` the
mean of `portions_used` over the 7-day window (0 for an empty window). -/
theorem summary_adherence (m : List Checkin) (plans : List Plan) (today : ℤ) :
    (∀ q : Plan, currentPlan plans = some q →
      q ∈ plans ∧ ∀ r ∈ plans, r.created_at ≤ q.created_at) ∧
    ((get_summary m plans today).adherence_percent ≠ none ↔
      ∃ q : Plan, ∃ t : ℚ, currentPlan plans = some q ∧ q.goal_type = "reduce" ∧
        q.target_portions_per_day = some t ∧ 0 < t) ∧
    (∀ q : Plan, ∀ t : ℚ, currentPlan plans = some q → q.goal_type = "reduce" →
      q.target_portions_per_day = some t → 0 < t →
      (get_summary m plans today).adherence_percent =
        some (max 0 (pythonRound 1 ((1 - specLast7Avg m today / t) * 100)))) := by
  have hadh : (get_summary m plans today).adherence_percent =
      adherencePercent (currentPlan plans) (last7List m today) := rfl
  have hmean : specLast7Avg m today = meanQ ((last7List m today).map portionsVal) := by
    rw [specLast7Avg, last7List_eq]
  refine ⟨fun q hq => ⟨currentPlan_mem hq, currentPlan_max plans q hq⟩, ?_, ?_⟩
  · rw [hadh]
    cases hcp : currentPlan plans with
    | none => simp [adherencePercent]
    | some q =>
      rw [adherencePercent_some]
      constructor
      · intro hne
        split_ifs at hne with h1 h2
        · obtain ⟨t, ht⟩ := Option.ne_none_iff_exists'.mp h1.2
          rw [ht, Option.getD_some] at h2
          exact ⟨q, t, rfl, h1.1, ht, h2⟩
        · exact absurd rfl hne
        · exact absurd rfl hne
      · rintro ⟨q', t, hq', hg, ht, hpos⟩
        have hqq : q = q' := Option.some.inj hq'
        subst hqq
        rw [if_pos ⟨hg, by simp [ht]⟩, if_pos (by rw [ht, Option.getD_some]; exact hpos)]
        simp
  · intro q t hq hg ht hpos
    rw [hadh, hq, adherencePercent_some,
      if_pos ⟨hg, by simp [ht]⟩, if_pos (by rw [ht, Option.getD_some]; exact hpos)]
    rw [hmean, ht, Option.getD_some]

/-- The adherence scenario of the specification: a "reduce" plan with
target 10 and a last-7-days average of 8 portions gives 20.0 percent. -/
theorem summary_adherence_witness :
    (get_summary
      [⟨"u", some 4, true, some 8, none, none⟩,
       ⟨"u", some 5, true, some 8, none, none⟩,
       ⟨"u", some 6, true, some 8, none, none⟩,
       ⟨"u", some 7, true, some 8, none, none⟩,
       ⟨"u", some 8, true, some 8, none, none⟩,
       ⟨"u", some 9, true, some 8, none, none⟩,
       ⟨"u", some 10, true, some 8, none, none⟩]
      [⟨"u", "reduce", 0, none, none, some 10, 5⟩] 10).adherence_percent = some 20 := by
  rw [(summary_adherence
      [⟨"u", some 4, true, some 8, none, none⟩,
       ⟨"u", some 5, true, some 8, none, none⟩,
       ⟨"u", some 6, true, some 8, none, none⟩,
       ⟨"u", some 7, true, some 8, none, none⟩,
       ⟨"u", some 8, true, some 8, none, none⟩,
       ⟨"u", some 9, true, some 8, none, none⟩,
       ⟨"u", some 10, true, some 8, none, none⟩]
      [⟨"u", "reduce", 0, none, none, some 10, 5⟩] 10).2.2
      ⟨"u", "reduce", 0, none, none, some 10, 5⟩ 10 rfl rfl rfl (by norm_num)]
  norm_num [specLast7Avg, meanQ, specInWindow, portionsVal, pythonRound, roundHalfEven, floorQ]

/-- C4: the check-in upsert overwrites all payload fields of an existing
(user_id, date) record in place and returns its identifier, inserts a new
record with fresh timestamps otherwise, and is idempotent: two identical
calls return the same identifier and leave exactly one record for the
natural key (given a store satisfying the natural-key and identifier
invariants). -/
theorem checkin_upsert (s : CheckinStore) (p : CheckinPayload) (now now2 : ℤ)
    (hv : validObjectId p.user_id = true) :
    (∀ e : CheckinDoc, s.docs.find? (checkinKeyMatch p) = some e →
      (s.docs.map (fun c => c.id)).Nodup →
      ∃ s1 : CheckinStore, ∃ e2 : CheckinDoc,
        create_or_update_checkin s p now = Except.ok (s1, e.id) ∧
        s1.docs.length = s.docs.length ∧
        s1.docs.find? (checkinKeyMatch p) = some e2 ∧
        e2.id = e.id ∧ e2.updated_at = now ∧
        e2.user_id = p.user_id ∧ e2.date = p.date ∧ e2.nicotine_free = p.nicotine_free ∧
        e2.portions_used = p.portions_used ∧ e2.craving_level = p.craving_level ∧
        e2.note = p.note) ∧
    (s.docs.find? (checkinKeyMatch p) = none →
      ∃ d : CheckinDoc,
        create_or_update_checkin s p now =
          Except.ok (⟨s.docs ++ [d], s.nextId + 1⟩, s.nextId) ∧
        d.id = s.nextId ∧ d.created_at = now ∧ d.updated_at = now ∧
        d.user_id = p.user_id ∧ d.date = p.date ∧ d.nicotine_free = p.nicotine_free ∧
        d.portions_used = p.portions_used ∧ d.craving_level = p.craving_level ∧
        d.note = p.note) ∧
    (s.docs.countP (checkinKeyMatch p) ≤ 1 →
      (∀ c ∈ s.docs, c.id < s.nextId) →
      (s.docs.map (fun c => c.id)).Nodup →
      ∃ s1 : CheckinStore, ∃ i1 : ℕ, ∃ s2 : CheckinStore, ∃ i2 : ℕ,
        create_or_update_checkin s p now = Except.ok (s1, i1) ∧
        create_or_update_checkin s1 p now2 = Except.ok (s2, i2) ∧
        i1 = i2 ∧ s2.docs.countP (checkinKeyMatch p) = 1) := by
  refine ⟨?_, ?_, ?_⟩
  · intro e he hn
    obtain ⟨l1, l2, hsplit, hnm, hke⟩ := find?_split _ _ _ he
    have hid1 : ∀ c ∈ l1, c.id ≠ e.id := nodup_ids_prepend (hsplit ▸ hn)
    have hupd : updateOneById s.docs e.id (fun c => overwriteCheckin c p now) =
        l1 ++ overwriteCheckin e p now :: l2 := by
      rw [hsplit]
      exact updateOneById_prepend l2 _ hid1 rfl
    refine ⟨⟨l1 ++ overwriteCheckin e p now :: l2, s.nextId⟩, overwriteCheckin e p now,
      ?_, ?_, ?_, rfl, rfl, rfl, rfl, rfl, rfl, rfl, rfl⟩
    · simp [create_or_update_checkin, hv, he, hupd]
    · rw [hsplit]
      simp
    · exact find?_prepend_nomatch l2 hnm (overwriteCheckin_matches e p now)
  · intro he
    refine ⟨newCheckinDoc s.nextId p now, ?_, rfl, rfl, rfl, rfl, rfl, rfl, rfl, rfl, rfl⟩
    simp [create_or_update_checkin, hv, he]
  · intro hcount hfresh hn
    cases hfind : s.docs.find? (checkinKeyMatch p) with
    | some e =>
      obtain ⟨l1, l2, hsplit, hnm, hke⟩ := find?_split _ _ _ hfind
      have hid1 : ∀ c ∈ l1, c.id ≠ e.id := nodup_ids_prepend (hsplit ▸ hn)
      have hupd1 : updateOneById s.docs e.id (fun c => overwriteCheckin c p now) =
          l1 ++ overwriteCheckin e p now :: l2 := by
        rw [hsplit]
        exact updateOneById_prepend l2 _ hid1 rfl
      have hfind2 : (l1 ++ overwriteCheckin e p now :: l2).find? (checkinKeyMatch p) =
          some (overwriteCheckin e p now) :=
        find?_prepend_nomatch l2 hnm (overwriteCheckin_matches e p now)
      have hupd2 : updateOneById (l1 ++ overwriteCheckin e p now :: l2)
          (overwriteCheckin e p now).id (fun c => overwriteCheckin c p now2) =
          l1 ++ overwriteCheckin (overwriteCheckin e p now) p now2 :: l2 :=
        updateOneById_prepend l2 _ (fun c hc => hid1 c hc) rfl
      have hl1zero : l1.countP (checkinKeyMatch p) = 0 :=
        List.countP_eq_zero.mpr (fun a ha => by simp [hnm a ha])
      have hl2zero : l2.countP (checkinKeyMatch p) = 0 := by
        have := hcount
        rw [hsplit, List.countP_append, List.countP_cons, hl1zero, if_pos hke] at this
        omega
      refine ⟨⟨l1 ++ overwriteCheckin e p now :: l2, s.nextId⟩, e.id,
        ⟨l1 ++ overwriteCheckin (overwriteCheckin e p now) p now2 :: l2, s.nextId⟩,
        (overwriteCheckin e p now).id, ?_, ?_, rfl, ?_⟩
      · simp [create_or_update_checkin, hv, hfind, hupd1]
      · simp [create_or_update_checkin, hv, hfind2, hupd2]
      · rw [List.countP_append, List.countP_cons, hl1zero, hl2zero,
          if_pos (overwriteCheckin_matches _ p now2)]
    | none =>
      have hzero : s.docs.countP (checkinKeyMatch p) = 0 :=
        List.countP_eq_zero.mpr (List.find?_eq_none.mp hfind)
      have hnomatch : ∀ c ∈ s.docs, checkinKeyMatch p c = false :=
        fun c hc => eq_false_of_ne_true (List.find?_eq_none.mp hfind c hc)
      have hfind2 : (s.docs ++ newCheckinDoc s.nextId p now :: []).find? (checkinKeyMatch p) =
          some (newCheckinDoc s.nextId p now) :=
        find?_prepend_nomatch [] hnomatch (newCheckinDoc_matches s.nextId p now)
      have hupd2 : updateOneById (s.docs ++ newCheckinDoc s.nextId p now :: [])
          (newCheckinDoc s.nextId p now).id (fun c => overwriteCheckin c p now2) =
          s.docs ++ overwriteCheckin (newCheckinDoc s.nextId p now) p now2 :: [] :=
        updateOneById_prepend [] _ (fun c hc => Nat.ne_of_lt (hfresh c hc)) rfl
      refine ⟨⟨s.docs ++ [newCheckinDoc s.nextId p now], s.nextId + 1⟩, s.nextId,
        ⟨s.docs ++ [overwriteCheckin (newCheckinDoc s.nextId p now) p now2], s.nextId + 1⟩,
        (newCheckinDoc s.nextId p now).id, ?_, ?_, rfl, ?_⟩
      · simp [create_or_update_checkin, hv, hfind]
      · simp [create_or_update_checkin, hv, hfind2, hupd2]
      · rw [List.countP_append, hzero, List.countP_cons,
          if_pos (overwriteCheckin_matches _ p now2)]
        rfl

/-- The upsert idempotence scenario at a concrete store: for a store
holding one check-in for the key, two identical calls return the same
identifier and leave one record for the key. -/
theorem checkin_upsert_witness :
    ∃ s1 : CheckinStore, ∃ i1 : ℕ, ∃ s2 : CheckinStore, ∃ i2 : ℕ,
      create_or_update_checkin
        ⟨[⟨0, "aaaaaaaaaaaaaaaaaaaaaaaa", 10, false, none, none, none, 1, 1⟩], 1⟩
        ⟨"aaaaaaaaaaaaaaaaaaaaaaaa", 10, true, some 2, none, none⟩ 5 = Except.ok (s1, i1) ∧
      create_or_update_checkin s1
        ⟨"aaaaaaaaaaaaaaaaaaaaaaaa", 10, true, some 2, none, none⟩ 6 = Except.ok (s2, i2) ∧
      i1 = i2 ∧
      s2.docs.countP
        (checkinKeyMatch ⟨"aaaaaaaaaaaaaaaaaaaaaaaa", 10, true, some 2, none, none⟩) = 1 :=
  (checkin_upsert
      ⟨[⟨0, "aaaaaaaaaaaaaaaaaaaaaaaa", 10, false, none, none, none, 1, 1⟩], 1⟩
      ⟨"aaaaaaaaaaaaaaaaaaaaaaaa", 10, true, some 2, none, none⟩ 5 6 (by decide)).2.2
    (by decide) (by decide) (by decide)

/-- C10: when the upsert updates an existing (user_id, date) record, the
record keeps its identifier and `created_at`, only the payload fields and
`updated_at` are overwritten, every other record is untouched, and no
record is inserted. -/
theorem checkin_update_frame (s : CheckinStore) (p : CheckinPayload) (now : ℤ)
    (hv : validObjectId p.user_id = true)
    (hn : (s.docs.map (fun c => c.id)).Nodup) :
    ∀ e : CheckinDoc, s.docs.find? (checkinKeyMatch p) = some e →
      ∃ l1 l2 : List CheckinDoc, ∃ s1 : CheckinStore,
        s.docs = l1 ++ e :: l2 ∧
        create_or_update_checkin s p now = Except.ok (s1, e.id) ∧
        s1.docs = l1 ++ overwriteCheckin e p now :: l2 ∧
        s1.nextId = s.nextId ∧
        s1.docs.length = s.docs.length ∧
        (overwriteCheckin e p now).id = e.id ∧
        (overwriteCheckin e p now).created_at = e.created_at ∧
        (overwriteCheckin e p now).updated_at = now ∧
        (overwriteCheckin e p now).user_id = p.user_id ∧
        (overwriteCheckin e p now).date = p.date ∧
        (overwriteCheckin e p now).nicotine_free = p.nicotine_free ∧
        (overwriteCheckin e p now).portions_used = p.portions_used ∧
        (overwriteCheckin e p now).craving_level = p.craving_level ∧
        (overwriteCheckin e p now).note = p.note := by
  intro e he
  obtain ⟨l1, l2, hsplit, hnm, hke⟩ := find?_split _ _ _ he
  have hid1 : ∀ c ∈ l1, c.id ≠ e.id := nodup_ids_prepend (hsplit ▸ hn)
  have hupd : updateOneById s.docs e.id (fun c => overwriteCheckin c p now) =
      l1 ++ overwriteCheckin e p now :: l2 := by
    rw [hsplit]
    exact updateOneById_prepend l2 _ hid1 rfl
  refine ⟨l1, l2, ⟨l1 ++ overwriteCheckin e p now :: l2, s.nextId⟩, hsplit, ?_, rfl, rfl,
    ?_, rfl, rfl, rfl, rfl, rfl, rfl, rfl, rfl, rfl⟩
  · simp [create_or_update_checkin, hv, he, hupd]
  · rw [hsplit]
    simp

/-- A concrete instance of the frame theorem: updating the single stored
check-in leaves its id and `created_at` in place. -/
theorem checkin_update_frame_witness :
    ∃ l1 l2 : List CheckinDoc, ∃ s1 : CheckinStore,
      [(⟨0, "aaaaaaaaaaaaaaaaaaaaaaaa", 10, false, none, none, none, 1, 1⟩ : CheckinDoc)] =
        l1 ++ (⟨0, "aaaaaaaaaaaaaaaaaaaaaaaa", 10, false, none, none, none, 1, 1⟩ :
          CheckinDoc) :: l2 ∧
      create_or_update_checkin
        ⟨[⟨0, "aaaaaaaaaaaaaaaaaaaaaaaa", 10, false, none, none, none, 1, 1⟩], 1⟩
        ⟨"aaaaaaaaaaaaaaaaaaaaaaaa", 10, true, some 2, none, none⟩ 5 =
        Except.ok (s1, (⟨0, "aaaaaaaaaaaaaaaaaaaaaaaa", 10, false, none, none, none, 1, 1⟩ :
          CheckinDoc).id) ∧
      s1.docs = l1 ++ overwriteCheckin
        ⟨0, "aaaaaaaaaaaaaaaaaaaaaaaa", 10, false, none, none, none, 1, 1⟩
        ⟨"aaaaaaaaaaaaaaaaaaaaaaaa", 10, true, some 2, none, none⟩ 5 :: l2 ∧
      s1.nextId = (⟨[⟨0, "aaaaaaaaaaaaaaaaaaaaaaaa", 10, false, none, none, none, 1, 1⟩], 1⟩ :
        CheckinStore).nextId ∧
      s1.docs.length = (⟨[⟨0, "aaaaaaaaaaaaaaaaaaaaaaaa", 10, false, none, none, none, 1, 1⟩],
        1⟩ : CheckinStore).docs.length ∧
      (overwriteCheckin ⟨0, "aaaaaaaaaaaaaaaaaaaaaaaa", 10, false, none, none, none, 1, 1⟩
        ⟨"aaaaaaaaaaaaaaaaaaaaaaaa", 10, true, some 2, none, none⟩ 5).id =
        (⟨0, "aaaaaaaaaaaaaaaaaaaaaaaa", 10, false, none, none, none, 1, 1⟩ :
          CheckinDoc).id ∧
      (overwriteCheckin ⟨0, "aaaaaaaaaaaaaaaaaaaaaaaa", 10, false, none, none, none, 1, 1⟩
        ⟨"aaaaaaaaaaaaaaaaaaaaaaaa", 10, true, some 2, none, none⟩ 5).created_at =
        (⟨0, "aaaaaaaaaaaaaaaaaaaaaaaa", 10, false, none, none, none, 1, 1⟩ :
          CheckinDoc).created_at ∧
      (overwriteCheckin ⟨0, "aaaaaaaaaaaaaaaaaaaaaaaa", 10, false, none, none, none, 1, 1⟩
        ⟨"aaaaaaaaaaaaaaaaaaaaaaaa", 10, true, some 2, none, none⟩ 5).updated_at = 5 ∧
      (overwriteCheckin ⟨0, "aaaaaaaaaaaaaaaaaaaaaaaa", 10, false, none, none, none, 1, 1⟩
        ⟨"aaaaaaaaaaaaaaaaaaaaaaaa", 10, true, some 2, none, none⟩ 5).user_id =
        "aaaaaaaaaaaaaaaaaaaaaaaa" ∧
      (overwriteCheckin ⟨0, "aaaaaaaaaaaaaaaaaaaaaaaa", 10, false, none, none, none, 1, 1⟩
        ⟨"aaaaaaaaaaaaaaaaaaaaaaaa", 10, true, some 2, none, none⟩ 5).date = 10 ∧
      (overwriteCheckin ⟨0, "aaaaaaaaaaaaaaaaaaaaaaaa", 10, false, none, none, none, 1, 1⟩
        ⟨"aaaaaaaaaaaaaaaaaaaaaaaa", 10, true, some 2, none, none⟩ 5).nicotine_free = true ∧
      (overwriteCheckin ⟨0, "aaaaaaaaaaaaaaaaaaaaaaaa", 10, false, none, none, none, 1, 1⟩
        ⟨"aaaaaaaaaaaaaaaaaaaaaaaa", 10, true, some 2, none, none⟩ 5).portions_used =
        some 2 ∧
      (overwriteCheckin ⟨0, "aaaaaaaaaaaaaaaaaaaaaaaa", 10, false, none, none, none, 1, 1⟩
        ⟨"aaaaaaaaaaaaaaaaaaaaaaaa", 10, true, some 2, none, none⟩ 5).craving_level = none ∧
      (overwriteCheckin ⟨0, "aaaaaaaaaaaaaaaaaaaaaaaa", 10, false, none, none, none, 1, 1⟩
        ⟨"aaaaaaaaaaaaaaaaaaaaaaaa", 10, true, some 2, none, none⟩ 5).note = none :=
  checkin_update_frame
    ⟨[⟨0, "aaaaaaaaaaaaaaaaaaaaaaaa", 10, false, none, none, none, 1, 1⟩], 1⟩
    ⟨"aaaaaaaaaaaaaaaaaaaaaaaa", 10, true, some 2, none, none⟩ 5 (by decide) (by decide)
    ⟨0, "aaaaaaaaaaaaaaaaaaaaaaaa", 10, false, none, none, none, 1, 1⟩ (by decide)

/-- C7: plan creation fails with 400 on a malformed user id and with 404
when the referenced user does not exist, leaving the store unchanged in
both cases; a plan record is appended only when both checks pass. -/
theorem create_plan_errors (s : PlanStore) (p : PlanPayload) (now : ℤ) :
    (validObjectId p.user_id = false → create_plan s p now = (s, Except.error 400)) ∧
    (validObjectId p.user_id = true → s.users.contains p.user_id = false →
      create_plan s p now = (s, Except.error 404)) ∧
    (validObjectId p.user_id = true → s.users.contains p.user_id = true →
      (create_plan s p now).1.plans = s.plans ++ [insertPlanDoc s.nextId p now] ∧
      (create_plan s p now).1.users = s.users ∧
      (create_plan s p now).2 = Except.ok s.nextId) := by
  refine ⟨?_, ?_, ?_⟩
  · intro h
    simp [create_plan, h]
  · intro h1 h2
    have h2m : p.user_id ∉ s.users := by simpa using h2
    simp [create_plan, h1, h2m]
  · intro h1 h2
    have h2m : p.user_id ∈ s.users := by simpa using h2
    simp [create_plan, h1, h2m]

/-- A concrete instance of the plan-creation error behaviour: a malformed
user id is rejected with 400 and the store is unchanged. -/
theorem create_plan_errors_witness :
    create_plan ⟨[], [], 0⟩ ⟨"x", "quit", 0, none, none, none⟩ 0 =
      (⟨[], [], 0⟩, Except.error 400) :=
  (create_plan_errors ⟨[], [], 0⟩ ⟨"x", "quit", 0, none, none, none⟩ 0).1 (by decide)

/-- C8: on an empty reachable store the tips endpoint seeds exactly the 4
default tips and returns them, a second call returns the same stored tips
without seeding again, any non-empty store is returned as-is, and an
unreachable store yields exactly the two hardcoded fallback tips with no
store interaction. -/
theorem tips_seeding (l : List Tip) :
    (get_tips (some []) = (some defaultTips, defaultTips) ∧ defaultTips.length = 4) ∧
    get_tips (some defaultTips) = (some defaultTips, defaultTips) ∧
    (l ≠ [] → get_tips (some l) = (some l, l.take 20)) ∧
    (get_tips none = (none, fallbackTips) ∧ fallbackTips.length = 2) := by
  refine ⟨⟨rfl, rfl⟩, rfl, ?_, rfl, rfl⟩
  intro h
  cases l with
  | nil => exact absurd rfl h
  | cons a t => simp [get_tips]

/-- A concrete instance of the no-reseeding behaviour: a non-empty store
is returned unchanged. -/
theorem tips_seeding_witness :
    get_tips (some fallbackTips) = (some fallbackTips, fallbackTips.take 20) :=
  (tips_seeding fallbackTips).2.2.1 (by simp [fallbackTips])

end SnusQuit
